import Mathlib

/-!
Verification development for `magnit_parser.py`: a shallow embedding of the
program's pure data transformations, with theorems checking the documented
behaviour.  JSON-decoded Python values are modelled by `PyVal` (floats are
modelled as exact rationals; the magnitudes the program handles make this
faithful), fallible Python code returns `Except PyErr`.
-/

namespace Magnit

/-- Model of a JSON-decoded Python value as produced by `r.json()`.
Python floats are carried as exact rationals. -/
inductive PyVal where
  | none
  | bool (b : Bool)
  | int (n : Int)
  | float (q : ℚ)
  | str (s : String)
  | list (xs : List PyVal)
  | dict (fields : List (String × PyVal))

/-- Python truthiness (`bool(x)`) on the modelled values. -/
def pyTruthy : PyVal → Bool
  | .none => false
  | .bool b => b
  | .int n => n != 0
  | .float q => q != 0
  | .str s => !s.isEmpty
  | .list xs => !xs.isEmpty
  | .dict fs => !fs.isEmpty

/-- Python `isinstance(x, int)`: true for ints and also for bools, because
`bool` is a subclass of `int` in Python. -/
def pyIsInstanceInt : PyVal → Bool
  | .int _ => true
  | .bool _ => true
  | _ => false

/-- The integral value of a Python value that `isinstance(x, int)` accepts:
`True` counts as 1 and `False` as 0, exactly as in Python. -/
def pyToIntOpt : PyVal → Option Int
  | .int n => some n
  | .bool b => some (if b then 1 else 0)
  | _ => Option.none

/-- An element of a `goods/search` page: a JSON object, i.e. its field list
(keys are unique, insertion-ordered, as in a Python dict). -/
def Item : Type := List (String × PyVal)

/-- Python `it.get(key)` on an item: the field value, or `None` when the key
is missing (`dict.get` defaults to `None`). -/
def itemGet (it : Item) (k : String) : PyVal :=
  match List.lookup k it with
  | some v => v
  | Option.none => PyVal.none

/-- Errors raised by the embedded code; one constructor per raise site or
Python built-in exception kind the code can hit. -/
inductive PyErr where
  | keyError
  | typeError
  | valueError
  | cityUnresolved
  | coffeeNotFound
deriving DecidableEq, Repr

/-- Characters Python `str.strip()` removes (the ASCII whitespace set;
the program never handles exotic Unicode spaces). -/
def pyIsSpace (c : Char) : Bool :=
  c = ' ' || c = '\t' || c = '\n' || c = '\r' || c.toNat = 0x0b || c.toNat = 0x0c

/-- Whitespace-strip on the character list (both ends). -/
def pyStripL (l : List Char) : List Char :=
  ((l.dropWhile pyIsSpace).reverse.dropWhile pyIsSpace).reverse

/-- Python `s.strip()`. -/
def pyStrip (s : String) : String :=
  String.mk (pyStripL s.data)

/-- Python `str.lower` on one character, restricted to the ASCII Latin and
Cyrillic alphabets this program works with (other characters are fixed). -/
def lowerChar (c : Char) : Char :=
  if 'A' ≤ c && c ≤ 'Z' then Char.ofNat (c.toNat + 32)
  else if 0x410 ≤ c.toNat && c.toNat ≤ 0x42F then Char.ofNat (c.toNat + 0x20)
  else if c.toNat = 0x401 then Char.ofNat 0x451
  else c

/-- Python `s.lower()` (on the alphabets in scope). -/
def pyLower (s : String) : String :=
  String.mk (s.data.map lowerChar)

/-- Does `pat` occur as a prefix of `s` (plain character lists). -/
def isPrefixL : List Char → List Char → Bool
  | [], _ => true
  | _ :: _, [] => false
  | p :: ps, c :: cs => p = c && isPrefixL ps cs

/-- Python `pat in s` substring test on character lists. -/
def containsL (pat : List Char) : List Char → Bool
  | [] => pat.isEmpty
  | c :: rest => isPrefixL pat (c :: rest) || containsL pat rest

/-- Round-half-to-even of a rational to an integer, the rounding Python
`round` and float formatting use. -/
def roundHalfEven (x : ℚ) : Int :=
  let f := ⌊x⌋
  let r := x - f
  if r < 1/2 then f
  else if 1/2 < r then f + 1
  else if f % 2 = 0 then f else f + 1

/-- Round a rational to 2 decimal places (half to even), `round(x, 2)`. -/
def roundTo2 (q : ℚ) : ℚ :=
  (roundHalfEven (q * 100) : ℚ) / 100

/-- Python `x / 100.0` for the value kinds division accepts; strings, lists
and dicts raise `TypeError`. -/
def pyDiv100 : PyVal → Except PyErr ℚ
  | .int n => .ok ((n : ℚ) / 100)
  | .bool b => .ok (((if b then 1 else 0) : ℚ) / 100)
  | .float q => .ok (q / 100)
  | _ => .error .typeError

/-- Source `money_from_int` (lines 51-55): `None` passes through, otherwise
`round(value / 100.0, 2)`.  For an integer number of kopecks the result is
the exact rational `value / 100`. -/
def money_from_int (v : PyVal) : Except PyErr (Option ℚ) :=
  match v with
  | .none => .ok Option.none
  | w => match pyDiv100 w with
    | .ok q => .ok (some (roundTo2 q))
    | .error e => .error e

/-- Match a lowercase literal pattern case-insensitively at the head of the
input, returning the remaining input. -/
def matchCI : List Char → List Char → Option (List Char)
  | [], s => some s
  | _ :: _, [] => Option.none
  | p :: ps, c :: cs => if lowerChar c = p then matchCI ps cs else Option.none

/-- Match the regex piece for one-or-more whitespace greedily, returning the
remaining input (fails if no leading whitespace). -/
def matchWs : List Char → Option (List Char)
  | [] => Option.none
  | c :: cs => if pyIsSpace c then some (cs.dropWhile pyIsSpace) else Option.none

/-- The anchored, case-insensitive removal of a generic coffee prefix
(source line 61), alternatives tried in the order the regex backtracks. -/
def stripCoffee (s : List Char) : List Char :=
  match (matchCI "кофе".data s).bind matchWs with
  | some rest => rest
  | Option.none =>
    match ((matchCI "кофейный".data s).bind matchWs).bind
        (fun r => (matchCI "напиток".data r).bind matchWs) with
    | some rest => rest
    | Option.none =>
      match ((matchCI "кофейные".data s).bind matchWs).bind
          (fun r => (matchCI "напитки".data r).bind matchWs) with
      | some rest => rest
      | Option.none => s

/-- A separator character of the token split regex (whitespace or comma). -/
def isSepTok (c : Char) : Bool := pyIsSpace c || c = ','

/-- The split on runs of separators, mirroring Python `re.split`: leading or
trailing separator runs produce empty tokens, and the empty string yields the
single empty token. -/
def splitTok : Nat → List Char → List (List Char)
  | 0, s => [s]
  | fuel + 1, s =>
    let tok := s.takeWhile (fun c => !isSepTok c)
    let rest := s.dropWhile (fun c => !isSepTok c)
    match rest with
    | [] => [tok]
    | _ :: more => tok :: splitTok fuel (more.dropWhile isSepTok)

/-- Tokenization of the remaining name (source line 62). -/
def tokensOf (s : List Char) : List (List Char) := splitTok (s.length + 1) s

/-- The bracket and quote characters stripped from token ends
(source line 74, the set given to `str.strip`). -/
def stripChars : List Char :=
  ['(', ')', '[', ']', Char.ofNat 0x7b, Char.ofNat 0x7d, Char.ofNat 34, Char.ofNat 39]

/-- Strip characters of `stripChars` from both ends. -/
def stripSetL (l : List Char) : List Char :=
  ((l.dropWhile (stripChars.contains ·)).reverse.dropWhile (stripChars.contains ·)).reverse

/-- Token cleanup (source lines 74 and 83): whitespace strip, bracket and
quote strip, then removal of every guillemet. -/
def cleanTok (t : List Char) : List Char :=
  (stripSetL (pyStripL t)).filter (fun c => c ≠ '«' && c ≠ '»')

/-- The stoplist of generic descriptive words (source lines 66-71). -/
def skipWords : List (List Char) :=
  ["растворимый".data, "молотый".data, "зерновой".data, "натуральный".data,
   "жареный".data, "сублимированный".data, "в".data, "капсулах".data,
   "дрип".data, "дрип-пакетах".data, "смесь".data, "для".data,
   "кофемашин".data, "эспрессо".data, "арабика".data, "робуста".data,
   "вес".data, "г".data, "кг".data, "мл".data]

/-- Membership of the lowercased token in the stoplist. -/
def inSkip (tt : List Char) : Bool := skipWords.contains (tt.map lowerChar)

def isLatinUp (c : Char) : Bool := 'A' ≤ c && c ≤ 'Z'

def isLatinLow (c : Char) : Bool := 'a' ≤ c && c ≤ 'z'

def isDigitA (c : Char) : Bool := 48 ≤ c.toNat && c.toNat ≤ 57

def isLatTail (c : Char) : Bool := isLatinUp c || isLatinLow c || isDigitA c || c = '-'

def isCyrUp (c : Char) : Bool :=
  (0x410 ≤ c.toNat && c.toNat ≤ 0x42F) || c.toNat = 0x401

def isCyrAny (c : Char) : Bool :=
  isCyrUp c || (0x430 ≤ c.toNat && c.toNat ≤ 0x44F) || c.toNat = 0x451

def isCyrTail (c : Char) : Bool := isCyrAny c || isDigitA c || c = '-'

def isUpTok (c : Char) : Bool := isLatinUp c || isDigitA c || c = '-'

/-- The two uppercase-initial word patterns of source line 77: an uppercase
Latin or Cyrillic letter followed by at least one alphanumeric or hyphen of
the same alphabet. -/
def brandLike (tt : List Char) : Bool :=
  match tt with
  | [] => false
  | c :: rest =>
    (isLatinUp c && !rest.isEmpty && rest.all isLatTail)
      || (isCyrUp c && !rest.isEmpty && rest.all isCyrTail)

/-- The all-uppercase pattern of source line 79: two or more characters, all
uppercase Latin, digits or hyphens. -/
def brandLikeUpper (tt : List Char) : Bool :=
  decide (2 ≤ tt.length) && tt.all isUpTok

/-- First loop of the brand search (source lines 73-80): skip empty or
stoplisted cleaned tokens, return the first brand-like cleaned token. -/
def firstBrand : List (List Char) → Option (List Char)
  | [] => Option.none
  | t :: rest =>
    let tt := cleanTok t
    if tt.isEmpty || inSkip tt then firstBrand rest
    else if brandLike tt || brandLikeUpper tt then some tt
    else firstBrand rest

/-- Fallback loop (source lines 82-85): the first non-empty, non-stoplisted
cleaned token. -/
def firstNonSkip : List (List Char) → Option (List Char)
  | [] => Option.none
  | t :: rest =>
    let tt := cleanTok t
    if !tt.isEmpty && !inSkip tt then some tt else firstNonSkip rest

/-- Source `extract_brand_from_name` (lines 58-87). -/
def extract_brand_from_name (name : String) : String :=
  let s := stripCoffee (pyStripL name.data)
  let tokens := tokensOf s
  if tokens.isEmpty then ""
  else
    match firstBrand tokens with
    | some tt => String.mk tt
    | Option.none =>
      match firstNonSkip tokens with
      | some tt => String.mk tt
      | Option.none => ""

def FIAS_SPB : String := "c2deb16a-0330-4f05-821f-1d09c93331e6"

def FIAS_MOSCOW : String := "0c5b2444-70a0-4932-980c-b4dc0d3f02b5"

/-- The static city table (source lines 25-38), in declaration order, which
is the dict iteration order the substring fallback depends on. -/
def KNOWN_CITIES : List (String × String) :=
  [("москва", FIAS_MOSCOW), ("moscow", FIAS_MOSCOW), ("msk", FIAS_MOSCOW),
   ("санкт-петербург", FIAS_SPB), ("санкт петербург", FIAS_SPB),
   ("спб", FIAS_SPB), ("питер", FIAS_SPB), ("saint petersburg", FIAS_SPB),
   ("st petersburg", FIAS_SPB), ("spb", FIAS_SPB)]

/-- The substring-fallback loop of `resolve_city` (source lines 120-123):
the first table key contained in the normalized input wins. -/
def substrFirst : List (String × String) → List Char → Option String
  | [], _ => Option.none
  | (k, v) :: rest, key =>
    if containsL k.data key then some v else substrFirst rest key

/-- Python truthiness of an optional string argument (absent or empty means
falsy). -/
def optTruthy : Option String → Bool
  | Option.none => false
  | some s => !s.isEmpty

/-- The geo-identifier determination of source `resolve_city` (lines
110-131); the subsequent HTTP call to `city/info` is external and not part
of this computation.  A missing or empty result raises the configuration
error of line 126. -/
def resolve_city_fias (city : Option String) (fias_id : Option String) :
    Except PyErr String :=
  let fias : Option String :=
    if optTruthy fias_id then some (pyStrip (fias_id.getD ""))
    else if optTruthy city then
      let key := pyLower (pyStrip (city.getD ""))
      match List.lookup key KNOWN_CITIES with
      | some v => some v
      | Option.none => substrFirst KNOWN_CITIES key.data
    else Option.none
  match fias with
  | some f => if f.isEmpty then .error .cityUnresolved else .ok f
  | Option.none => .error .cityUnresolved

/-- Truncation toward zero, the conversion Python `int()` applies to a
float. -/
def pyTrunc (q : ℚ) : Int :=
  if q < 0 then -(⌊-q⌋) else ⌊q⌋

/-- Value of a plain run of decimal digits, `Option.none` when empty or when
a non-digit occurs. -/
def digitsVal : List Char → Option Nat
  | [] => Option.none
  | [c] => if isDigitA c then some (c.toNat - 48) else Option.none
  | c :: rest =>
    if isDigitA c then
      match digitsVal rest with
      | some m => some ((c.toNat - 48) * 10 ^ rest.length + m)
      | Option.none => Option.none
    else Option.none

/-- Python `int(s)` on a string: surrounding whitespace allowed, an optional
sign, then at least one digit; anything else raises `ValueError` (digit-group
underscores are not modelled, the category ids in scope have none). -/
def parseIntStr (s : String) : Except PyErr Int :=
  match pyStripL s.data with
  | '-' :: rest =>
    (match digitsVal rest with
     | some n => .ok (-(n : Int))
     | Option.none => .error .valueError)
  | '+' :: rest =>
    (match digitsVal rest with
     | some n => .ok (n : Int)
     | Option.none => .error .valueError)
  | l =>
    match digitsVal l with
    | some n => .ok (n : Int)
    | Option.none => .error .valueError

/-- Python `int(x)` on the modelled values: ints pass through, bools become
0 or 1, floats truncate toward zero, strings parse or raise `ValueError`,
anything else raises `TypeError`. -/
def pyIntCast : PyVal → Except PyErr Int
  | .int n => .ok n
  | .bool b => .ok (if b then 1 else 0)
  | .float q => .ok (pyTrunc q)
  | .str s => parseIntStr s
  | _ => .error .typeError

/-- Test of source line 156: `nodes.get("name") == "Кофе"`; a Python value
of any other type never equals a string. -/
def nameIsCoffee (fs : List (String × PyVal)) : Bool :=
  match List.lookup "name" fs with
  | some (.str s) => s = "Кофе"
  | _ => false

/-- The children a dict node contributes (source line 158,
`nodes.get("children", []) or []` then iteration).  A missing or falsy value
contributes nothing.  A truthy dict or string value is iterated by Python as
its keys or its characters: every such element is itself a string, and the
walk returns `None` on a bare string, so the contribution is observably the
same as no children; it is embedded as the empty list.  A truthy number is
not iterable and raises `TypeError`. -/
def childList (fs : List (String × PyVal)) : Except PyErr (List PyVal) :=
  match List.lookup "children" fs with
  | Option.none => .ok []
  | some w =>
    if !pyTruthy w then .ok []
    else
      match w with
      | .list xs => .ok xs
      | .dict _ => .ok []
      | .str _ => .ok []
      | _ => .error .typeError

theorem lookup_sizeOf {fs : List (String × PyVal)} {k : String} {v : PyVal}
    (h : List.lookup k fs = some v) : sizeOf v < sizeOf fs := by
  induction fs with
  | nil => simp [List.lookup] at h
  | cons a rest ih =>
    rw [List.lookup] at h
    rcases a with ⟨ka, va⟩
    by_cases hk : k == ka
    · simp [hk] at h
      subst h
      simp
      omega
    · simp [hk] at h
      have := ih h
      simp
      omega

theorem childList_sizeOf {fs : List (String × PyVal)} {xs : List PyVal}
    (h : childList fs = .ok xs) : sizeOf xs ≤ sizeOf fs := by
  unfold childList at h
  cases hl : List.lookup "children" fs with
  | none =>
    rw [hl] at h
    simp at h
    subst h
    rcases fs with _ | ⟨a, rest⟩ <;> simp <;> omega
  | some w =>
    rw [hl] at h
    have hw := lookup_sizeOf hl
    by_cases ht : pyTruthy w
    · simp [ht] at h
      cases w with
      | list ys =>
        simp at h
        subst h
        simp at hw
        omega
      | dict gs =>
        simp at h; subst h
        rcases fs with _ | ⟨a, rest⟩ <;> simp <;> omega
      | str s =>
        simp at h; subst h
        rcases fs with _ | ⟨a, rest⟩ <;> simp <;> omega
      | none => simp at h
      | bool b => simp at h
      | int n => simp at h
      | float q => simp at h
    · simp [ht] at h
      subst h
      rcases fs with _ | ⟨a, rest⟩ <;> simp <;> omega

mutual

/-- Source `walk` (lines 154-167): depth-first search of the category tree
for the first node named `Кофе`, returning `int(nodes["id"])`; a matching
node without an `id` field raises `KeyError`. -/
def walk : PyVal → Except PyErr (Option Int)
  | .dict fs =>
    if nameIsCoffee fs then
      match List.lookup "id" fs with
      | some v =>
        (match pyIntCast v with
         | .ok n => .ok (some n)
         | .error e => .error e)
      | Option.none => .error .keyError
    else
      match h : childList fs with
      | .ok xs => walkList xs
      | .error e => .error e
  | .list xs => walkList xs
  | _ => .ok Option.none
termination_by v => sizeOf v
decreasing_by
  all_goals simp_wf
  all_goals first
    | omega
    | (have hcs := childList_sizeOf h; omega)

/-- The iteration of `walk` over a list of nodes: first found result wins. -/
def walkList : List PyVal → Except PyErr (Option Int)
  | [] => .ok Option.none
  | x :: rest =>
    match walk x with
    | .ok (some n) => .ok (some n)
    | .ok Option.none => walkList rest
    | .error e => .error e
termination_by xs => sizeOf xs
decreasing_by
  all_goals simp_wf
  all_goals omega

end

/-- Source `get_coffee_category_id` (lines 147-172), applied to the decoded
response body: walk `data.get("items", [])`, raising the not-found error of
line 171 when the walk returns `None`. -/
def get_coffee_category_id (data : PyVal) : Except PyErr Int :=
  match data with
  | .dict fs =>
    let items := match List.lookup "items" fs with
      | some v => v
      | Option.none => .list []
    (match walk items with
     | .ok (some n) => .ok n
     | .ok Option.none => .error .coffeeNotFound
     | .error e => .error e)
  | _ => .error .typeError

/-- The numeric half of the stock test of source line 224: `qty > 0` on a
value `isinstance(qty, int)` accepted (`True` compares as 1). -/
def pyPosInt : PyVal → Bool
  | .int n => decide (0 < n)
  | .bool b => b
  | _ => false

/-- The stock filter of source lines 222-224: an item is yielded exactly
when `isinstance(qty, int) and qty > 0` holds for its `quantity` field. -/
def inStock (it : Item) : Bool :=
  pyIsInstanceInt (itemGet it "quantity") && pyPosInt (itemGet it "quantity")

/-- Source `iter_coffee_products_in_stock` loop (lines 201-229) over an
abstract server: `oracle offset token` is the `(items, token)` pair the
`goods/search` call returns for that offset and continuation token.  `fuel`
bounds the number of page requests (the Python loop itself is unbounded);
alongside the yielded items, the offsets passed to successive page requests
are recorded. -/
def iterPages (oracle : Nat → String → List Item × String) (limit : Nat) :
    Nat → Nat → String → List Item × List Nat
  | 0, _, _ => ([], [])
  | fuel + 1, offset, tok =>
    let page := oracle offset tok
    if page.1.isEmpty then ([], [offset])
    else
      let rest := iterPages oracle limit fuel (offset + limit) page.2
      (page.1.filter inStock ++ rest.1, offset :: rest.2)

/-- The full run of the product fetcher: offset 0 and empty continuation
token to start. -/
def iter_coffee_products_in_stock (oracle : Nat → String → List Item × String)
    (limit fuel : Nat) : List Item × List Nat :=
  iterPages oracle limit fuel 0 ""

/-- The normalized output record (source lines 41-48). -/
structure ProductRow where
  product_id : String
  name : String
  regular_price : Option ℚ
  promo_price : Option ℚ
  brand : String
  city : String
deriving DecidableEq, Repr

/-- Evaluation of `it.get("promotion") or {}` followed by use as a dict:
any falsy value becomes the empty dict, a truthy non-dict raises
`AttributeError` at the first `.get` (modelled as `typeError`). -/
def promoDict (v : PyVal) : Except PyErr (List (String × PyVal)) :=
  if !pyTruthy v then .ok []
  else
    match v with
    | .dict fs => .ok fs
    | _ => .error .typeError

/-- Evaluation of `(it.get("name") or "").strip()`: falsy values become the
empty string, a truthy non-string raises at `.strip` (modelled as
`typeError`). -/
def pyNameStr (v : PyVal) : Except PyErr String :=
  if !pyTruthy v then .ok ""
  else
    match v with
    | .str s => .ok (pyStrip s)
    | _ => .error .typeError

/-- Python `str(x)` for the values a product id can be; truthy floats, lists
and dicts are rendered by Python with their own textual forms, which no
theorem below exercises, so they are carried as the empty string. -/
def pyStrOf : PyVal → String
  | .str s => s
  | .int n => toString n
  | .bool b => if b then "True" else "False"
  | .none => "None"
  | _ => ""

/-- Source `to_row` (lines 232-253). -/
def to_row (it : Item) (city_name : String) : Except PyErr ProductRow :=
  match promoDict (itemGet it "promotion") with
  | .error e => .error e
  | .ok promo =>
    let is_promo := pyTruthy ((List.lookup "isPromotion" promo).getD PyVal.none)
    let price := itemGet it "price"
    let old_price := (List.lookup "oldPrice" promo).getD PyVal.none
    match (if is_promo then money_from_int price else .ok Option.none) with
    | .error e => .error e
    | .ok promo_price =>
      match (if is_promo && pyIsInstanceInt old_price then money_from_int old_price
             else money_from_int price) with
      | .error e => .error e
      | .ok regular_price =>
        match pyNameStr (itemGet it "name") with
        | .error e => .error e
        | .ok name =>
          let pid0 := itemGet it "productId"
          let pid1 := if pyTruthy pid0 then pid0 else itemGet it "id"
          let pid2 := if pyTruthy pid1 then pid1 else .str ""
          .ok { product_id := pyStrip (pyStrOf pid2), name := name,
                regular_price := regular_price, promo_price := promo_price,
                brand := extract_brand_from_name name, city := city_name }

def digitChar (d : Nat) : Char := Char.ofNat (48 + d)

def natDigs : Nat → Nat → List Char
  | 0, _ => []
  | fuel + 1, n => if n < 10 then [digitChar n] else natDigs fuel (n / 10) ++ [digitChar (n % 10)]

/-- Decimal digits of a natural number. -/
def natRepr (n : Nat) : List Char := natDigs (n + 1) n

/-- Python `f-string` formatting with `.2f`: the value rounded half-to-even
to two decimal places, always printing exactly two fractional digits. -/
def fmt2 (q : ℚ) : List Char :=
  let n := roundHalfEven (q * 100)
  (if n < 0 then ['-'] else [])
    ++ natRepr (n.natAbs / 100)
    ++ '.' :: [digitChar (n.natAbs % 100 / 10), digitChar (n.natAbs % 10)]

/-- Price serialization of source lines 264-265: absent prices become the
empty field, present prices are formatted with `.2f`. -/
def fmtPrice : Option ℚ → List Char
  | Option.none => []
  | some q => fmt2 q

def quoteChar : Char := Char.ofNat 34

/-- A csv field needs quoting (QUOTE_MINIMAL) when it contains the `;`
delimiter, the quote character, or a line-break character. -/
def needsQuote (f : List Char) : Bool :=
  f.any (fun c => c = ';' || c = quoteChar || c = '\r' || c = '\n')

def escapeQuotes : List Char → List Char
  | [] => []
  | c :: rest =>
    if c = quoteChar then quoteChar :: quoteChar :: escapeQuotes rest
    else c :: escapeQuotes rest

/-- Serialization of one field by `csv.writer` with delimiter `;`. -/
def csvField (f : List Char) : List Char :=
  if needsQuote f then quoteChar :: (escapeQuotes f ++ [quoteChar]) else f

def joinSemi : List (List Char) → List Char
  | [] => []
  | [f] => f
  | f :: rest => f ++ ';' :: joinSemi rest

/-- One `writerow` call: fields serialized, joined with `;`, terminated with
the csv default `\r\n` (the file is opened with `newline=""`). -/
def csvLine (fields : List (List Char)) : List Char :=
  joinSemi (fields.map csvField) ++ ['\r', '\n']

def headerFields : List (List Char) :=
  ["id".data, "name".data, "regular_price".data, "promo_price".data,
   "brand".data, "city".data]

/-- The six field values of one record, in column order (lines 261-268). -/
def rowFieldData (r : ProductRow) : List (List Char) :=
  [r.product_id.data, r.name.data, fmtPrice r.regular_price,
   fmtPrice r.promo_price, r.brand.data, r.city.data]

/-- The byte-order mark, decoded as the character U+FEFF. -/
def bomChar : Char := Char.ofNat 0xFEFF

/-- Source `write_csv` (lines 256-268): the decoded text content of the
written file.  The `utf-8-sig` encoding prefixes a byte-order mark. -/
def write_csv (rows : List ProductRow) : List Char :=
  bomChar :: (csvLine headerFields
    ++ (rows.map (fun r => csvLine (rowFieldData r))).flatten)

/-- The row-building loop of `main` (lines 306-308): transform items in
order, aborting on the first failure. -/
def itemsToRows (items : List Item) (city_name : String) :
    Except PyErr (List ProductRow) :=
  match items with
  | [] => .ok []
  | it :: rest =>
    match to_row it city_name with
    | .error e => .error e
    | .ok r =>
      match itemsToRows rest city_name with
      | .error e => .error e
      | .ok rs => .ok (r :: rs)

/-- The sequential run of `main` (source lines 297-312) with the outcome of
each external step abstracted: city resolution, category lookup, and the
complete pagination are each an `Except` result (pagination and row
transformation are interleaved lazily in the source; a failure in either
still precedes the write, so the fetch outcome is modelled as the full item
list or the error that aborted the run).  The `ok` value is the file content
`write_csv` produces; an `error` outcome means the run aborted with no file
written. -/
def mainPipeline (cityR : Except PyErr (String × String × String))
    (catR : Except PyErr Int) (fetchR : Except PyErr (List Item)) :
    Except PyErr (List Char) :=
  match cityR with
  | .error e => .error e
  | .ok city =>
    match catR with
    | .error e => .error e
    | .ok _ =>
      match fetchR with
      | .error e => .error e
      | .ok items =>
        match itemsToRows items city.2.1 with
        | .error e => .error e
        | .ok rows => .ok (write_csv rows)

mutual

/-- A category tree, in the claim's sense, that contains no node named
`Кофе`: dict and list nodes nested arbitrarily, where a dict's `children`
field is absent, falsy, a list of such trees, or a dict or string (whose
Python iteration yields only bare strings), and no dict is named `Кофе`. -/
def cleanTree : PyVal → Bool
  | .dict fs =>
    !(nameIsCoffee fs) &&
      (match hm : childList fs with
       | .ok xs => cleanList xs
       | .error _ => false)
  | .list xs => cleanList xs
  | _ => true
termination_by v => sizeOf v
decreasing_by
  all_goals simp_wf
  all_goals first
    | omega
    | (have hcs := childList_sizeOf (by assumption); omega)

/-- `cleanTree` on every element of a list of nodes. -/
def cleanList : List PyVal → Bool
  | [] => true
  | x :: rest => cleanTree x && cleanList rest
termination_by xs => sizeOf xs
decreasing_by
  all_goals simp_wf
  all_goals omega

end

/-- A character that triggers no csv quoting: not the `;` delimiter, not the
quote character, not a line break. -/
def cleanFieldChar (c : Char) : Bool :=
  !(c = ';' || c = quoteChar || c = '\r' || c = '\n')

/-- A string none of whose characters triggers csv quoting. -/
def cleanStr (s : String) : Bool := s.data.all cleanFieldChar

/-- A record whose four string-valued fields trigger no csv quoting (price
fields are formatted from digits and never can). -/
def rowClean (r : ProductRow) : Bool :=
  cleanStr r.product_id && cleanStr r.name && cleanStr r.brand && cleanStr r.city

/-- First page of the concrete pagination scenario: two items, one in
stock. -/
def pageA : List Item :=
  [[("quantity", PyVal.int 1)], [("quantity", PyVal.int 0)]]

/-- Second page of the concrete pagination scenario: two items, one in
stock. -/
def pageB : List Item :=
  [[("quantity", PyVal.int 3)], [("quantity", PyVal.str "x")]]

/-- A concrete server for the pagination scenario: pages at offsets 0 and
20, an empty page at every other offset. -/
def oracleW : Nat → String → List Item × String :=
  fun off _ =>
    if off = 0 then (pageA, "t1")
    else if off = 20 then (pageB, "t2")
    else ([], "t3")

theorem roundHalfEven_intCast (n : Int) : roundHalfEven (n : ℚ) = n := by
  unfold roundHalfEven
  simp

theorem roundTo2_div100 (n : Int) : roundTo2 ((n : ℚ) / 100) = (n : ℚ) / 100 := by
  unfold roundTo2
  have h : ((n : ℚ) / 100) * 100 = (n : ℚ) :=
    div_mul_cancel₀ _ (by norm_num : (100 : ℚ) ≠ 0)
  rw [h, roundHalfEven_intCast]

theorem money_from_int_int (n : Int) :
    money_from_int (.int n) = .ok (some ((n : ℚ) / 100)) := by
  simp [money_from_int, pyDiv100, roundTo2_div100]

theorem inStock_eq_claim (it : Item) :
    inStock it
      = (match pyToIntOpt (itemGet it "quantity") with
         | some n => decide (0 < n)
         | Option.none => false) := by
  unfold inStock
  cases itemGet it "quantity" with
  | bool b => cases b <;> rfl
  | _ => rfl

/-- C2: for every page of items, the product fetcher emits exactly the
items whose `quantity` field holds a positive integer (Python integers
include booleans, `True` counting as 1); items with quantity 0, a missing
quantity, or a non-integer quantity are dropped by the total boolean filter,
with no error raised. -/
theorem c2_stock_filter :
    (∀ items : List Item,
        items.filter inStock
          = items.filter (fun it =>
              match pyToIntOpt (itemGet it "quantity") with
              | some n => decide (0 < n)
              | Option.none => false))
    ∧ inStock [("quantity", PyVal.int 1)] = true
    ∧ inStock [("quantity", PyVal.int 5)] = true
    ∧ inStock [("quantity", PyVal.int 0)] = false
    ∧ inStock ([] : Item) = false
    ∧ inStock [("quantity", PyVal.none)] = false
    ∧ inStock [("quantity", PyVal.str "2")] = false
    ∧ inStock [("quantity", PyVal.float 2)] = false :=
  ⟨fun items => List.filter_congr (fun it _ => inStock_eq_claim it),
   rfl, rfl, rfl, rfl, rfl, rfl, rfl⟩

/-- C10: a `quantity` of boolean `True` passes both halves of the stock
test (`isinstance(qty, int)` holds for bools, and `True > 0` holds since
`True` compares as 1), so the item is yielded; boolean `False` is dropped
like a zero quantity. -/
theorem c10_bool_quantity :
    inStock [("quantity", PyVal.bool true)] = true
    ∧ inStock [("quantity", PyVal.bool false)] = false
    ∧ pyIsInstanceInt (PyVal.bool true) = true
    ∧ pyPosInt (PyVal.bool true) = true
    ∧ pyPosInt (PyVal.bool false) = false
    ∧ [[("quantity", PyVal.bool true)], [("quantity", PyVal.bool false)],
       [("quantity", PyVal.int 0)]].filter inStock
        = [[("quantity", PyVal.bool true)]] :=
  ⟨rfl, rfl, rfl, rfl, rfl, rfl⟩

/-- C3: over a page sequence whose third page is empty, the fetcher yields
exactly the in-stock items of the first two pages and stops there — the
oracle's behaviour beyond the empty page cannot alter the output — and the
offsets passed to the successive page requests are 0, `limit`, `2 * limit`. -/
theorem c3_pagination_termination
    (oracle : Nat → String → List Item × String) (limit fuel : Nat)
    (a b : List Item) (ta tb tc : String)
    (h0 : oracle 0 "" = (a, ta)) (ha : a.length = 2)
    (h1 : oracle limit ta = (b, tb)) (hb : b.length = 2)
    (h2 : oracle (2 * limit) tb = ([], tc)) (hf : 3 ≤ fuel) :
    iter_coffee_products_in_stock oracle limit fuel
      = (a.filter inStock ++ b.filter inStock, [0, limit, 2 * limit]) := by
  obtain ⟨n, rfl⟩ : ∃ n, fuel = n + 3 := ⟨fuel - 3, by omega⟩
  have hae : a.isEmpty = false := by cases a <;> simp_all
  have hbe : b.isEmpty = false := by cases b <;> simp_all
  rw [two_mul] at h2
  unfold iter_coffee_products_in_stock
  show iterPages oracle limit (n + 3) 0 "" = _
  rw [show n + 3 = (n + 2) + 1 from rfl, iterPages]
  simp only [h0, hae, Bool.false_eq_true, if_false, Nat.zero_add]
  rw [show n + 2 = (n + 1) + 1 from rfl, iterPages]
  simp only [h1, hbe, Bool.false_eq_true, if_false]
  rw [iterPages]
  simp only [h2, List.isEmpty_nil, if_true]
  simp [two_mul]

/-- Concrete run of the pagination scenario of C3: pages of two items at
offsets 0 and 20, empty page afterwards; the in-stock items of the first
two pages come out, and the requests were made at offsets 0, 20, 40. -/
theorem c3_pagination_termination_witness :
    iter_coffee_products_in_stock oracleW 20 3
      = ([[("quantity", PyVal.int 1)], [("quantity", PyVal.int 3)]],
         [0, 20, 40]) := by
  have h := c3_pagination_termination oracleW 20 3 pageA pageB "t1" "t2" "t3"
    rfl rfl rfl rfl rfl (by omega)
  exact h.trans rfl

theorem lookup_val_mem {l : List (String × String)} {k v : String}
    (h : List.lookup k l = some v) : v ∈ l.map Prod.snd := by
  induction l with
  | nil => simp [List.lookup] at h
  | cons a rest ih =>
    rw [List.lookup] at h
    rcases a with ⟨ka, va⟩
    by_cases hk : k == ka
    · simp only [hk] at h
      simp at h
      subst h
      simp
    · simp only [Bool.not_eq_true] at hk
      rw [hk] at h
      simp only [List.map_cons, List.mem_cons]
      exact Or.inr (ih h)

theorem substrFirst_eq_find (l : List (String × String)) (key : List Char) :
    substrFirst l key
      = (l.find? (fun kv => containsL kv.1.data key)).map Prod.snd := by
  induction l with
  | nil => rfl
  | cons a rest ih =>
    rcases a with ⟨ka, va⟩
    rw [substrFirst, List.find?]
    by_cases hc : containsL ka.data key
    · simp [hc]
    · simp only [Bool.not_eq_true] at hc
      rw [hc]
      simpa using ih

theorem substrFirst_val_mem {l : List (String × String)} {key : List Char}
    {v : String} (h : substrFirst l key = some v) : v ∈ l.map Prod.snd := by
  induction l with
  | nil => simp [substrFirst] at h
  | cons a rest ih =>
    rcases a with ⟨ka, va⟩
    rw [substrFirst] at h
    by_cases hc : containsL ka.data key
    · rw [hc] at h
      simp at h
      subst h
      simp
    · simp only [Bool.not_eq_true] at hc
      rw [hc] at h
      simp only [if_false, Bool.false_eq_true, List.map_cons, List.mem_cons]
      exact Or.inr (ih h)

theorem known_cities_vals : ∀ v ∈ KNOWN_CITIES.map Prod.snd, v.isEmpty = false := by
  decide

/-- C4 counterexample: a supplied geo-identifier with surrounding whitespace
is not used verbatim — `resolve_city` strips it (source line 113). -/
theorem c4_city_resolution_counterexample :
    resolve_city_fias Option.none (some " X ") = .ok "X" ∧ "X" ≠ " X " :=
  ⟨rfl, by decide⟩

/-- C4 (amended): an explicitly supplied geo-identifier that is non-blank
after trimming always wins and is used with its surrounding whitespace
stripped (an empty supplied identifier is falsy and falls through to the
city-name path; a whitespace-only one wins, strips to empty and fails with
the configuration error); otherwise the trimmed, lowercased city name is
looked up exactly in the static table, then the first table key in
iteration order that is a substring of the normalized input wins, and with
no explicit identifier and no match the configuration error is raised. -/
theorem c4_city_resolution :
    (∀ (s : String) (c : Option String), pyStrip s ≠ "" →
        resolve_city_fias c (some s) = .ok (pyStrip s))
    ∧ (∀ c : Option String,
        resolve_city_fias c (some "") = resolve_city_fias c Option.none)
    ∧ (∀ (city v : String),
        List.lookup (pyLower (pyStrip city)) KNOWN_CITIES = some v →
        resolve_city_fias (some city) Option.none = .ok v)
    ∧ (∀ (city v : String),
        List.lookup (pyLower (pyStrip city)) KNOWN_CITIES = Option.none →
        (KNOWN_CITIES.find? (fun kv =>
            containsL kv.1.data (pyLower (pyStrip city)).data)).map Prod.snd
          = some v →
        resolve_city_fias (some city) Option.none = .ok v)
    ∧ (∀ city : String,
        List.lookup (pyLower (pyStrip city)) KNOWN_CITIES = Option.none →
        KNOWN_CITIES.find? (fun kv =>
            containsL kv.1.data (pyLower (pyStrip city)).data) = Option.none →
        resolve_city_fias (some city) Option.none = .error .cityUnresolved)
    ∧ resolve_city_fias Option.none Option.none = .error .cityUnresolved
    ∧ resolve_city_fias (some "Moscow") (some " ") = .error .cityUnresolved
    ∧ resolve_city_fias (some "Moscow") Option.none = .ok FIAS_MOSCOW
    ∧ resolve_city_fias (some "SPB") Option.none = .ok FIAS_SPB
    ∧ resolve_city_fias (some "Moscow, Russia") Option.none = .ok FIAS_MOSCOW := by
  refine ⟨?_, ?_, ?_, ?_, ?_, rfl, rfl, rfl, rfl, rfl⟩
  · intro s c hs
    have hne : ¬ s = "" := fun h => hs (by rw [h]; rfl)
    have hse : s.isEmpty = false := by
      rw [← Bool.not_eq_true, String.isEmpty_iff]
      exact hne
    have hpe : (pyStrip s).isEmpty = false := by
      rw [← Bool.not_eq_true, String.isEmpty_iff]
      exact hs
    simp [resolve_city_fias, optTruthy, hse, hpe]
  · intro c
    rfl
  · intro city v h
    by_cases hc : city = ""
    · rw [hc, show List.lookup (pyLower (pyStrip "")) KNOWN_CITIES = Option.none
          from by decide] at h
      exact Option.noConfusion h
    · have hce : city.isEmpty = false := by
        rw [← Bool.not_eq_true, String.isEmpty_iff]
        exact hc
      have hv : v.isEmpty = false := known_cities_vals v (lookup_val_mem h)
      simp [resolve_city_fias, optTruthy, hce, h, hv]
  · intro city v h hf
    by_cases hc : city = ""
    · rw [hc, show (KNOWN_CITIES.find? (fun kv =>
            containsL kv.1.data (pyLower (pyStrip "")).data)).map Prod.snd
            = Option.none from by decide] at hf
      exact Option.noConfusion hf
    · have hce : city.isEmpty = false := by
        rw [← Bool.not_eq_true, String.isEmpty_iff]
        exact hc
      have hsf : substrFirst KNOWN_CITIES (pyLower (pyStrip city)).data = some v := by
        rw [substrFirst_eq_find]
        exact hf
      have hv : v.isEmpty = false := known_cities_vals v (substrFirst_val_mem hsf)
      simp [resolve_city_fias, optTruthy, hce, h, hsf, hv]
  · intro city h hf
    by_cases hc : city.isEmpty
    · simp [resolve_city_fias, optTruthy, hc]
    · have hce : city.isEmpty = false := by
        rw [← Bool.not_eq_true]
        exact hc
      have hsf : substrFirst KNOWN_CITIES (pyLower (pyStrip city)).data = Option.none := by
        rw [substrFirst_eq_find, hf]
        rfl
      simp [resolve_city_fias, optTruthy, hce, h, hsf]

/-- Concrete applications of C4: a padded explicit identifier wins trimmed
even when a resolvable city name is also given, and a city input containing
the table key `питер` as a substring resolves to the Saint Petersburg
identifier. -/
theorem c4_city_resolution_witness :
    resolve_city_fias (some "Питер, РФ") (some " abc-id ") = .ok "abc-id"
    ∧ resolve_city_fias (some "Питер, РФ") Option.none = .ok FIAS_SPB := by
  constructor
  · exact c4_city_resolution.1 " abc-id " (some "Питер, РФ") (by decide)
  · exact c4_city_resolution.2.2.2.1 "Питер, РФ" FIAS_SPB (by decide) (by decide)

theorem walk_clean_aux :
    ∀ n : Nat,
      (∀ v : PyVal, sizeOf v ≤ n → cleanTree v = true → walk v = .ok Option.none)
      ∧ (∀ xs : List PyVal, sizeOf xs ≤ n → cleanList xs = true →
          walkList xs = .ok Option.none) := by
  intro n
  induction n using Nat.strong_induction_on with
  | _ n ih =>
    constructor
    · intro v hs hc
      cases v with
      | dict fs =>
        simp only [cleanTree, Bool.and_eq_true, Bool.not_eq_true'] at hc
        obtain ⟨hname, hch⟩ := hc
        cases hcl : childList fs with
        | error e => rw [hcl] at hch; exact Bool.noConfusion hch
        | ok xs =>
          rw [hcl] at hch
          have hsx : sizeOf xs ≤ sizeOf fs := childList_sizeOf hcl
          have hd : sizeOf (PyVal.dict fs) = 1 + sizeOf fs := by simp
          rw [hd] at hs
          have hrec := (ih (n - 1) (by omega)).2 xs (by omega) hch
          simp only [walk, hname, Bool.false_eq_true, if_false]
          split
          · next ys hys =>
              rw [hcl] at hys
              injection hys with hys
              rw [← hys]
              exact hrec
          · next e he =>
              rw [hcl] at he
              exact Except.noConfusion he
      | list xs =>
        simp only [cleanTree] at hc
        have hd : sizeOf (PyVal.list xs) = 1 + sizeOf xs := by simp
        rw [hd] at hs
        simp only [walk]
        exact (ih (n - 1) (by omega)).2 xs (by omega) hc
      | none => simp [walk]
      | bool b => simp [walk]
      | int m => simp [walk]
      | float q => simp [walk]
      | str s => simp [walk]
    · intro xs hs hc
      cases xs with
      | nil => simp [walkList]
      | cons x rest =>
        simp only [cleanList, Bool.and_eq_true] at hc
        have hd : sizeOf (x :: rest) = 1 + sizeOf x + sizeOf rest := by simp
        rw [hd] at hs
        have hx := (ih (n - 1) (by omega)).1 x (by omega) hc.1
        have hr := (ih (n - 1) (by omega)).2 rest (by omega) hc.2
        simp only [walkList, hx]
        exact hr

theorem walk_clean (v : PyVal) (hc : cleanTree v = true) :
    walk v = .ok Option.none :=
  (walk_clean_aux (sizeOf v)).1 v le_rfl hc

/-- C5: over any dict-and-list category tree without a node named `Кофе`
(leaves without a `children` field included), the category lookup fails
exactly with the not-found error; a target nested at depth 3 inside lists of
lists is found and its id returned; an empty tree and a missing items list
fail with the same not-found error. -/
theorem c5_category_search :
    (∀ v : PyVal, cleanTree v = true →
        get_coffee_category_id (.dict [("items", v)]) = .error .coffeeNotFound)
    ∧ get_coffee_category_id (.dict [("items",
        .list [.list [.list
          [.dict [("name", .str "Кофе"), ("id", .int 842)]]]])]) = .ok 842
    ∧ get_coffee_category_id (.dict [("items", .list [])])
        = .error .coffeeNotFound
    ∧ get_coffee_category_id (.dict []) = .error .coffeeNotFound
    ∧ get_coffee_category_id (.dict [("items", .list
        [.dict [("name", .str "Чай")],
         .dict [("name", .str "Вода"), ("children", PyVal.none)],
         .str "прочее"])]) = .error .coffeeNotFound := by
  have hfound : ∀ t : PyVal, ∀ n : Int, walk t = .ok (some n) →
      get_coffee_category_id (.dict [("items", t)]) = .ok n := by
    intro t n hw
    simp [get_coffee_category_id, List.lookup, hw]
  have hmiss : ∀ t : PyVal, walk t = .ok Option.none →
      get_coffee_category_id (.dict [("items", t)]) = .error .coffeeNotFound := by
    intro t hw
    simp [get_coffee_category_id, List.lookup, hw]
  refine ⟨fun v hc => hmiss v (walk_clean v hc), ?_, ?_, ?_, ?_⟩
  · apply hfound
    simp [walk, walkList, nameIsCoffee, List.lookup, pyIntCast]
  · apply hmiss
    simp [walk, walkList]
  · simp [get_coffee_category_id, List.lookup, walk, walkList]
  · apply hmiss
    simp [walk, walkList, childList, nameIsCoffee, pyTruthy, List.lookup]

/-- Concrete application of C5: a small tree with a leaf node (no
`children` field), a `None` children value and a bare-string leaf contains
no `Кофе` node, and the lookup fails with exactly the not-found error. -/
theorem c5_category_search_witness :
    get_coffee_category_id (.dict [("items",
      .list [.dict [("name", .str "Чай"),
                    ("children", .list [.dict [("name", .str "Зелёный")]])],
             .dict [("name", .str "Вода")]])]) = .error .coffeeNotFound := by
  have h1 : cleanTree (.list [.dict [("name", .str "Чай"),
      ("children", .list [.dict [("name", .str "Зелёный")]])],
      .dict [("name", .str "Вода")]]) = true := by
    simp [cleanTree, cleanList, childList, nameIsCoffee, pyTruthy, List.lookup]
  exact c5_category_search.1 _ h1

theorem to_row_ok (it : Item) (c : String) (row : ProductRow)
    (h : to_row it c = .ok row) :
    ∃ promo nm,
      promoDict (itemGet it "promotion") = .ok promo
      ∧ (if pyTruthy ((List.lookup "isPromotion" promo).getD PyVal.none)
         then money_from_int (itemGet it "price")
         else .ok Option.none) = .ok row.promo_price
      ∧ (if pyTruthy ((List.lookup "isPromotion" promo).getD PyVal.none)
            && pyIsInstanceInt ((List.lookup "oldPrice" promo).getD PyVal.none)
         then money_from_int ((List.lookup "oldPrice" promo).getD PyVal.none)
         else money_from_int (itemGet it "price")) = .ok row.regular_price
      ∧ pyNameStr (itemGet it "name") = .ok nm ∧ row.name = nm := by
  unfold to_row at h
  cases h1 : promoDict (itemGet it "promotion") with
  | error e => rw [h1] at h; exact Except.noConfusion h
  | ok promo =>
    rw [h1] at h
    simp only at h
    cases h2 : (if pyTruthy ((List.lookup "isPromotion" promo).getD PyVal.none)
        then money_from_int (itemGet it "price")
        else .ok Option.none) with
    | error e => rw [h2] at h; exact Except.noConfusion h
    | ok pp =>
      rw [h2] at h
      simp only at h
      cases h3 : (if pyTruthy ((List.lookup "isPromotion" promo).getD PyVal.none)
            && pyIsInstanceInt ((List.lookup "oldPrice" promo).getD PyVal.none)
          then money_from_int ((List.lookup "oldPrice" promo).getD PyVal.none)
          else money_from_int (itemGet it "price")) with
      | error e => rw [h3] at h; exact Except.noConfusion h
      | ok rp =>
        rw [h3] at h
        simp only at h
        cases h4 : pyNameStr (itemGet it "name") with
        | error e => rw [h4] at h; exact Except.noConfusion h
        | ok nm =>
          rw [h4] at h
          simp only at h
          injection h with h
          refine ⟨promo, nm, rfl, ?_, ?_, rfl, ?_⟩
          · rw [h2, ← h]
          · rw [h3, ← h]
          · rw [← h]

/-- C1: whenever `to_row` produces a record for an item whose `price` field
is an integer and whose `promotion` field is an object, a boolean
`isPromotion` of `true` makes `promo_price` the converted `price` and, when
an integer `oldPrice` is present, `regular_price` its conversion; a boolean
`isPromotion` of `false` makes `regular_price` the converted `price` with
`promo_price` absent.  The two concrete spec examples evaluate accordingly
(500 and 700 kopecks converting to 5 and 7 rubles). -/
theorem c1_promotion_pricing :
    (∀ (it : Item) (c : String) (row : ProductRow) (p : Int)
        (fs : List (String × PyVal)),
      to_row it c = .ok row →
      itemGet it "price" = .int p →
      itemGet it "promotion" = .dict fs →
      ((List.lookup "isPromotion" fs = some (.bool true) →
          row.promo_price = some ((p : ℚ) / 100)
          ∧ ∀ m : Int, List.lookup "oldPrice" fs = some (.int m) →
              row.regular_price = some ((m : ℚ) / 100))
        ∧ (List.lookup "isPromotion" fs = some (.bool false) →
            row.regular_price = some ((p : ℚ) / 100)
            ∧ row.promo_price = Option.none)))
    ∧ (to_row [("price", PyVal.int 500),
          ("promotion", PyVal.dict [("isPromotion", PyVal.bool true),
            ("oldPrice", PyVal.int 700)])] "msk").map
        (fun r => (r.promo_price, r.regular_price))
        = .ok (some 5, some 7)
    ∧ (to_row [("price", PyVal.int 500),
          ("promotion", PyVal.dict [("isPromotion", PyVal.bool false)])] "msk").map
        (fun r => (r.promo_price, r.regular_price))
        = .ok (Option.none, some 5) := by
  refine ⟨?_, by with_unfolding_all rfl, by with_unfolding_all rfl⟩
  intro it c row p fs hrow hp hpromo
  obtain ⟨promo, nm, h1, h2, h3, h4, h5⟩ := to_row_ok it c row hrow
  rw [hpromo] at h1
  have hpe : ∀ k : String, ∀ w : PyVal, List.lookup k fs = some w → promo = fs := by
    intro k w hk
    have hne : fs ≠ [] := by rintro rfl; exact Option.noConfusion hk
    have hpd : promoDict (.dict fs) = .ok fs := by
      cases fs with
      | nil => exact absurd rfl hne
      | cons a l => rfl
    rw [hpd] at h1
    exact (Except.ok.inj h1).symm
  constructor
  · intro hflag
    have hpf := hpe _ _ hflag
    subst hpf
    rw [hflag] at h2 h3
    simp only [Option.getD_some, pyTruthy, if_true] at h2 h3
    rw [hp, money_from_int_int] at h2
    constructor
    · exact (Except.ok.inj h2).symm
    · intro m hold
      rw [hold] at h3
      simp only [Option.getD_some, pyIsInstanceInt, Bool.and_true, if_true] at h3
      rw [money_from_int_int] at h3
      exact (Except.ok.inj h3).symm
  · intro hflag
    have hpf := hpe _ _ hflag
    subst hpf
    rw [hflag] at h2 h3
    simp only [Option.getD_some, pyTruthy, Bool.false_and, if_false] at h2 h3
    rw [hp, money_from_int_int] at h3
    exact ⟨(Except.ok.inj h3).symm, (Except.ok.inj h2).symm⟩

/-- Concrete application of C1: the promoted spec example item produces a
record whose promo price is the converted price and whose regular price is
the converted old price. -/
theorem c1_promotion_pricing_witness :
    (⟨"", "", some 7, some 5, "", "msk"⟩ : ProductRow).promo_price
        = some ((500 : ℚ) / 100)
    ∧ (⟨"", "", some 7, some 5, "", "msk"⟩ : ProductRow).regular_price
        = some ((700 : ℚ) / 100) := by
  have h := (c1_promotion_pricing.1
    [("price", PyVal.int 500),
     ("promotion", PyVal.dict [("isPromotion", PyVal.bool true),
       ("oldPrice", PyVal.int 700)])]
    "msk" ⟨"", "", some 7, some 5, "", "msk"⟩ 500
    [("isPromotion", PyVal.bool true), ("oldPrice", PyVal.int 700)]
    (by with_unfolding_all rfl) rfl rfl).1 rfl
  exact ⟨h.1, h.2 700 rfl⟩

theorem money_2dec (v : PyVal) (q : ℚ)
    (h : money_from_int v = .ok (some q)) : ∃ k : Int, q = (k : ℚ) / 100 := by
  unfold money_from_int at h
  cases v with
  | none => simp at h
  | int n =>
    simp only [pyDiv100] at h
    injection h with h
    injection h with h
    exact ⟨_, h.symm⟩
  | bool b =>
    simp only [pyDiv100] at h
    injection h with h
    injection h with h
    exact ⟨_, h.symm⟩
  | float x =>
    simp only [pyDiv100] at h
    injection h with h
    injection h with h
    exact ⟨_, h.symm⟩
  | str s => simp [pyDiv100] at h
  | list xs => simp [pyDiv100] at h
  | dict fs => simp [pyDiv100] at h

/-- C6 counterexample: an item with no price field at all still transforms
successfully, and the produced record has both prices absent, so no price is
populated. -/
theorem c6_price_invariant_counterexample :
    to_row ([] : Item) "" = .ok ⟨"", "", Option.none, Option.none, "", ""⟩
    ∧ (⟨"", "", Option.none, Option.none, "", ""⟩ : ProductRow).regular_price
        = Option.none
    ∧ (⟨"", "", Option.none, Option.none, "", ""⟩ : ProductRow).promo_price
        = Option.none :=
  ⟨rfl, rfl, rfl⟩

/-- C6 (amended): every record `to_row` produces has `regular_price` and
`promo_price` each optional rationals with exactly two decimal places, and
when the raw item's `price` field holds an integer, at least one of the two
is its conversion; an item without an integer price can leave both absent. -/
theorem c6_price_invariant :
    ∀ (it : Item) (c : String) (row : ProductRow),
      to_row it c = .ok row →
      (∀ q : ℚ, row.regular_price = some q → ∃ k : Int, q = (k : ℚ) / 100)
      ∧ (∀ q : ℚ, row.promo_price = some q → ∃ k : Int, q = (k : ℚ) / 100)
      ∧ (∀ p : Int, itemGet it "price" = .int p →
          row.regular_price = some ((p : ℚ) / 100)
          ∨ row.promo_price = some ((p : ℚ) / 100)) := by
  intro it c row hrow
  obtain ⟨promo, nm, h1, h2, h3, h4, h5⟩ := to_row_ok it c row hrow
  refine ⟨?_, ?_, ?_⟩
  · intro q hq
    rw [hq] at h3
    by_cases hcond : (pyTruthy ((List.lookup "isPromotion" promo).getD PyVal.none)
        && pyIsInstanceInt ((List.lookup "oldPrice" promo).getD PyVal.none)) = true
    · rw [if_pos hcond] at h3
      exact money_2dec _ _ h3
    · rw [if_neg hcond] at h3
      exact money_2dec _ _ h3
  · intro q hq
    rw [hq] at h2
    by_cases hcond : pyTruthy ((List.lookup "isPromotion" promo).getD PyVal.none) = true
    · rw [if_pos hcond] at h2
      exact money_2dec _ _ h2
    · rw [if_neg hcond] at h2
      exact Option.noConfusion (Except.ok.inj h2)
  · intro p hp
    rw [hp] at h2 h3
    by_cases hcond : pyTruthy ((List.lookup "isPromotion" promo).getD PyVal.none) = true
    · right
      rw [if_pos hcond, money_from_int_int] at h2
      exact (Except.ok.inj h2).symm
    · left
      have hbf : pyTruthy ((List.lookup "isPromotion" promo).getD PyVal.none)
          = false := Bool.eq_false_iff.mpr hcond
      have hc2 : (pyTruthy ((List.lookup "isPromotion" promo).getD PyVal.none)
          && pyIsInstanceInt ((List.lookup "oldPrice" promo).getD PyVal.none)) = false := by
        rw [hbf]
        exact Bool.false_and _
      rw [if_neg (by rw [hc2]; exact Bool.false_ne_true), money_from_int_int] at h3
      exact (Except.ok.inj h3).symm

/-- Concrete application of C6: an in-stock item with integer price 500 and
no promotion yields a record carrying 5.00 in one of its two price slots. -/
theorem c6_price_invariant_witness :
    (⟨"", "", some 5, Option.none, "", "c"⟩ : ProductRow).regular_price
        = some ((500 : ℚ) / 100)
    ∨ (⟨"", "", some 5, Option.none, "", "c"⟩ : ProductRow).promo_price
        = some ((500 : ℚ) / 100) :=
  (c6_price_invariant [("price", PyVal.int 500)] "c"
    ⟨"", "", some 5, Option.none, "", "c"⟩ (by with_unfolding_all rfl)).2.2
    500 rfl

/-- C7: brand extraction on the three documented example names — prefix
stripping and the uppercase-initial pattern pick `Jardin`; a name with no
stoplisted or capitalized token falls back to its first token; the empty
name gives the empty brand — and on a name whose every token is stoplisted,
which gives the empty brand. -/
theorem c7_brand_extraction :
    extract_brand_from_name "Кофе Jardin растворимый 95г" = "Jardin"
    ∧ extract_brand_from_name "некофейный продукт" = "некофейный"
    ∧ extract_brand_from_name "" = ""
    ∧ extract_brand_from_name "Кофе растворимый в капсулах" = "" :=
  ⟨rfl, rfl, rfl, rfl⟩

theorem isDigitA_range {c : Char} (h : isDigitA c = true) :
    48 ≤ c.toNat ∧ c.toNat ≤ 57 := by
  unfold isDigitA at h
  rw [Bool.and_eq_true] at h
  exact ⟨of_decide_eq_true h.1, of_decide_eq_true h.2⟩

theorem digit_clean {c : Char} (h : isDigitA c = true) :
    cleanFieldChar c = true := by
  obtain ⟨h1, h2⟩ := isDigitA_range h
  unfold cleanFieldChar
  simp only [Bool.not_eq_true', Bool.or_eq_false_iff, decide_eq_false_iff_not]
  refine ⟨⟨⟨?_, ?_⟩, ?_⟩, ?_⟩ <;> intro heq <;> rw [heq] at h1 h2 <;>
    revert h1 h2 <;> decide

theorem digit_ne_dot {c : Char} (h : isDigitA c = true) : c ≠ '.' := by
  obtain ⟨h1, h2⟩ := isDigitA_range h
  intro heq
  rw [heq] at h1
  exact absurd h1 (by decide)

theorem digitChar_digit : ∀ d : Nat, d < 10 → isDigitA (digitChar d) = true := by
  decide

theorem natDigs_digits :
    ∀ fuel n : Nat, ∀ c ∈ natDigs fuel n, isDigitA c = true := by
  intro fuel
  induction fuel with
  | zero => intro n c hc; simp [natDigs] at hc
  | succ f ih =>
    intro n c hc
    rw [natDigs] at hc
    by_cases h : n < 10
    · rw [if_pos h] at hc
      simp only [List.mem_singleton] at hc
      subst hc
      exact digitChar_digit _ h
    · rw [if_neg h] at hc
      rcases List.mem_append.mp hc with h1 | h1
      · exact ih _ c h1
      · simp only [List.mem_singleton] at h1
        subst h1
        exact digitChar_digit _ (Nat.mod_lt _ (by omega))

theorem natRepr_digits {n : Nat} {c : Char} (hc : c ∈ natRepr n) :
    isDigitA c = true :=
  natDigs_digits _ n c hc

theorem fmt2_two_frac (q : ℚ) :
    ∃ pre d1 d2, fmt2 q = pre ++ '.' :: [d1, d2]
      ∧ (∀ c ∈ pre, c ≠ '.')
      ∧ isDigitA d1 = true ∧ isDigitA d2 = true := by
  refine ⟨(if roundHalfEven (q * 100) < 0 then ['-'] else [])
      ++ natRepr ((roundHalfEven (q * 100)).natAbs / 100),
    digitChar ((roundHalfEven (q * 100)).natAbs % 100 / 10),
    digitChar ((roundHalfEven (q * 100)).natAbs % 10), ?_, ?_, ?_, ?_⟩
  · unfold fmt2
    simp [List.append_assoc]
  · intro c hc
    rcases List.mem_append.mp hc with h1 | h1
    · have : c = '-' := by
        by_cases hn : roundHalfEven (q * 100) < 0
        · rw [if_pos hn] at h1
          simpa using h1
        · rw [if_neg hn] at h1
          simp at h1
      subst this
      decide
    · exact digit_ne_dot (natRepr_digits h1)
  · exact digitChar_digit _ (by omega)
  · exact digitChar_digit _ (Nat.mod_lt _ (by omega))

theorem fmt2_clean {q : ℚ} {c : Char} (hc : c ∈ fmt2 q) :
    cleanFieldChar c = true := by
  unfold fmt2 at hc
  simp only [List.append_assoc, List.mem_append, List.mem_cons,
    List.not_mem_nil, or_false] at hc
  rcases hc with h1 | h1 | h1 | h1 | h1
  · have : c = '-' := by
      by_cases hn : roundHalfEven (q * 100) < 0
      · rw [if_pos hn] at h1
        simpa using h1
      · rw [if_neg hn] at h1
        simp at h1
    subst this
    decide
  · exact digit_clean (natRepr_digits h1)
  · subst h1
    decide
  · subst h1
    exact digit_clean (digitChar_digit _ (by omega))
  · subst h1
    exact digit_clean (digitChar_digit _ (Nat.mod_lt _ (by omega)))

theorem fmtPrice_clean {o : Option ℚ} {c : Char} (hc : c ∈ fmtPrice o) :
    cleanFieldChar c = true := by
  cases o with
  | none => simp [fmtPrice] at hc
  | some q => exact fmt2_clean hc

theorem csvField_clean {f : List Char}
    (h : ∀ c ∈ f, cleanFieldChar c = true) : csvField f = f := by
  have hq : needsQuote f = false := by
    by_contra hne
    rw [Bool.not_eq_false] at hne
    obtain ⟨c, hc, hp⟩ := List.any_eq_true.mp hne
    have := h c hc
    unfold cleanFieldChar at this
    rw [hp] at this
    exact Bool.noConfusion this
  unfold csvField
  rw [hq]
  rfl

theorem count_nl_clean {l : List Char}
    (h : ∀ c ∈ l, cleanFieldChar c = true) : List.count '\n' l = 0 := by
  rw [List.count_eq_zero]
  intro hmem
  have := h '\n' hmem
  exact absurd this (by decide)

theorem count_nl_joinSemi {fields : List (List Char)}
    (h : ∀ f ∈ fields, ∀ c ∈ f, cleanFieldChar c = true) :
    List.count '\n' (joinSemi fields) = 0 := by
  induction fields with
  | nil => rfl
  | cons f rest ih =>
    cases rest with
    | nil => exact count_nl_clean (h f (by simp))
    | cons g more =>
      have hstep : joinSemi (f :: g :: more) = f ++ ';' :: joinSemi (g :: more) := rfl
      rw [hstep, List.count_append, List.count_cons]
      rw [count_nl_clean (h f (List.mem_cons_self _ _)),
        ih (fun f2 hf2 c hc => h f2 (List.mem_cons_of_mem _ hf2) c hc)]
      decide

theorem csvLine_clean {fields : List (List Char)}
    (h : ∀ f ∈ fields, ∀ c ∈ f, cleanFieldChar c = true) :
    csvLine fields = joinSemi fields ++ ['\r', '\n'] := by
  unfold csvLine
  have : fields.map csvField = fields := by
    induction fields with
    | nil => rfl
    | cons f rest ih =>
      rw [List.map_cons, csvField_clean (h f (by simp)),
        ih (fun g hg c hc => h g (by simp [hg]) c hc)]
  rw [this]

theorem rowFieldData_clean {r : ProductRow} (h : rowClean r = true) :
    ∀ f ∈ rowFieldData r, ∀ c ∈ f, cleanFieldChar c = true := by
  unfold rowClean at h
  rw [Bool.and_eq_true, Bool.and_eq_true, Bool.and_eq_true] at h
  have h4 := h.1.1.1
  have h3 := h.1.1.2
  have h2 := h.1.2
  have h1 := h.2
  intro f hf c hc
  unfold rowFieldData at hf
  simp only [List.mem_cons, List.mem_singleton] at hf
  rcases hf with hf | hf | hf | hf | hf | hf | hf
  · subst hf
    exact List.all_eq_true.mp h4 c hc
  · subst hf
    exact List.all_eq_true.mp h3 c hc
  · subst hf
    exact fmtPrice_clean hc
  · subst hf
    exact fmtPrice_clean hc
  · subst hf
    exact List.all_eq_true.mp h2 c hc
  · subst hf
    exact List.all_eq_true.mp h1 c hc
  · exact absurd hf (by simp)

theorem count_nl_flatten :
    ∀ rs : List ProductRow, (∀ r ∈ rs, rowClean r = true) →
      List.count '\n'
          ((rs.map (fun r => joinSemi (rowFieldData r) ++ ['\r', '\n'])).flatten)
        = rs.length := by
  intro rs
  induction rs with
  | nil => intro _; rfl
  | cons r rest ih =>
    intro hrs
    rw [List.map_cons, List.flatten_cons, List.count_append, List.count_append]
    rw [count_nl_joinSemi (rowFieldData_clean (hrs r (List.mem_cons_self _ _)))]
    rw [ih (fun r2 h2 => hrs r2 (List.mem_cons_of_mem _ h2))]
    have hcr : List.count '\n' ['\r', '\n'] = 1 := rfl
    rw [hcr, List.length_cons]
    omega

/-- C8 counterexample: one record whose name contains a line feed produces a
file of three physical lines, not the two (header plus one) the claim
predicts — csv quoting embeds the line feed inside the quoted field. -/
theorem c8_csv_counterexample :
    List.count '\n'
        (write_csv [⟨"1", "a\nb", Option.none, Option.none, "", ""⟩]) = 3
    ∧ List.count '\n'
        (write_csv [⟨"1", "a\nb", Option.none, Option.none, "", ""⟩])
      ≠ ([(⟨"1", "a\nb", Option.none, Option.none, "", ""⟩ : ProductRow)].length
          + 1) :=
  ⟨rfl, by decide⟩

/-- C8 (amended): for every list of records whose string fields contain no
delimiter, quote or line-break character (so csv quoting never intervenes),
the file content is the byte-order mark followed by exactly N+1
CRLF-terminated lines — the fixed header then one semicolon-joined line per
record in order — where an absent price is the empty field and a present
price always carries exactly two fractional digits. -/
theorem c8_csv_output :
    ∀ rows : List ProductRow, (∀ r ∈ rows, rowClean r = true) →
      write_csv rows
        = bomChar :: ("id;name;regular_price;promo_price;brand;city".data
            ++ '\r' :: '\n' ::
              (rows.map (fun r => joinSemi (rowFieldData r) ++ ['\r', '\n'])).flatten)
      ∧ List.count '\n' (write_csv rows) = rows.length + 1
      ∧ (∀ q : ℚ, ∃ pre d1 d2, fmt2 q = pre ++ '.' :: [d1, d2]
            ∧ (∀ c ∈ pre, c ≠ '.')
            ∧ isDigitA d1 = true ∧ isDigitA d2 = true)
      ∧ fmtPrice Option.none = [] := by
  intro rows h
  have hhead : csvLine headerFields
      = "id;name;regular_price;promo_price;brand;city".data ++ ['\r', '\n'] := rfl
  have hmap : rows.map (fun r => csvLine (rowFieldData r))
      = rows.map (fun r => joinSemi (rowFieldData r) ++ ['\r', '\n']) :=
    List.map_congr_left (fun r hr => csvLine_clean (rowFieldData_clean (h r hr)))
  have hdecomp : write_csv rows
      = bomChar :: ("id;name;regular_price;promo_price;brand;city".data
          ++ '\r' :: '\n' ::
            (rows.map (fun r => joinSemi (rowFieldData r) ++ ['\r', '\n'])).flatten) := by
    unfold write_csv
    rw [hhead, hmap]
    simp [List.append_assoc]
  refine ⟨hdecomp, ?_, fmt2_two_frac, rfl⟩
  rw [hdecomp, List.count_cons, List.count_append]
  have hh : List.count '\n'
      ("id;name;regular_price;promo_price;brand;city".data) = 0 := rfl
  rw [hh, List.count_cons, List.count_cons, count_nl_flatten rows h]
  have e1 : (bomChar == '\n') = false := by decide
  have e2 : (('\r' : Char) == '\n') = false := by decide
  have e3 : (('\n' : Char) == '\n') = true := by decide
  rw [e1, e2, e3]
  simp

/-- Concrete application of C8: a single clean record with one present and
one absent price writes as exactly two CRLF-terminated lines. -/
theorem c8_csv_output_witness :
    List.count '\n' (write_csv
      [⟨"7", "Кофе Jardin 95г", some 5, Option.none, "Jardin", "Москва"⟩]) = 2 :=
  (c8_csv_output
    [⟨"7", "Кофе Jardin 95г", some 5, Option.none, "Jardin", "Москва"⟩]
    (by decide)).2.1

/-- C9: in the sequential run of `main`, a failure of city resolution, of the
category lookup, or anywhere during pagination yields an error outcome, so
the csv writer is never reached and no file content exists; conversely a
file content is produced only when every prior step succeeded, and it is the
single `write_csv` of the fully collected row list. -/
theorem c9_no_partial_output :
    (∀ (e : PyErr) (catR : Except PyErr Int)
        (fetchR : Except PyErr (List Item)),
      mainPipeline (.error e) catR fetchR = .error e)
    ∧ (∀ (cityR : Except PyErr (String × String × String)) (e : PyErr)
        (fetchR : Except PyErr (List Item)),
      ∀ out, mainPipeline cityR (.error e) fetchR ≠ .ok out)
    ∧ (∀ (cityR : Except PyErr (String × String × String))
        (catR : Except PyErr Int) (e : PyErr),
      ∀ out, mainPipeline cityR catR (.error e) ≠ .ok out)
    ∧ (∀ (cityR : Except PyErr (String × String × String))
        (catR : Except PyErr Int) (fetchR : Except PyErr (List Item))
        (out : List Char),
      mainPipeline cityR catR fetchR = .ok out →
      ∃ city cat items rows, cityR = .ok city ∧ catR = .ok cat
        ∧ fetchR = .ok items ∧ itemsToRows items city.2.1 = .ok rows
        ∧ out = write_csv rows) := by
  refine ⟨fun e catR fetchR => rfl, ?_, ?_, ?_⟩
  · intro cityR e fetchR out hout
    cases cityR with
    | error e2 => exact Except.noConfusion hout
    | ok city => exact Except.noConfusion hout
  · intro cityR catR e out hout
    cases cityR with
    | error e2 => exact Except.noConfusion hout
    | ok city =>
      cases catR with
      | error e2 => exact Except.noConfusion hout
      | ok cat => exact Except.noConfusion hout
  · intro cityR catR fetchR out hout
    cases cityR with
    | error e2 => exact Except.noConfusion hout
    | ok city =>
      cases catR with
      | error e2 => exact Except.noConfusion hout
      | ok cat =>
        cases fetchR with
        | error e2 => exact Except.noConfusion hout
        | ok items =>
          unfold mainPipeline at hout
          dsimp only at hout
          cases hr : itemsToRows items city.2.1 with
          | error e2 => rw [hr] at hout; exact Except.noConfusion hout
          | ok rows =>
            rw [hr] at hout
            exact ⟨city, cat, items, rows, rfl, rfl, rfl, hr,
              (Except.ok.inj hout).symm⟩

/-- Concrete applications of C9: a failed city resolution propagates as the
run outcome with no file content, and a fully successful run produces
exactly the csv of the collected rows. -/
theorem c9_no_partial_output_witness :
    mainPipeline (.error .cityUnresolved) (.ok 842) (.ok [])
      = .error .cityUnresolved
    ∧ ∃ city cat items rows,
        (Except.ok ("77", "Москва", "f") :
            Except PyErr (String × String × String)) = .ok city
        ∧ (Except.ok 842 : Except PyErr Int) = .ok cat
        ∧ (Except.ok [] : Except PyErr (List Item)) = .ok items
        ∧ itemsToRows items city.2.1 = .ok rows
        ∧ write_csv [] = write_csv rows :=
  ⟨c9_no_partial_output.1 .cityUnresolved (.ok 842) (.ok []),
   c9_no_partial_output.2.2.2 (.ok ("77", "Москва", "f")) (.ok 842) (.ok [])
     (write_csv []) rfl⟩

end Magnit
